import Mathlib

/-!
Verification development for the aws-ebs-volume-modifier-for-k8s controller.

The repository reconciles volume-modification intent, written as annotations on a
PersistentVolumeClaim (the Claim), into CSI `ModifyVolumeProperties` calls, and records
the applied parameters as annotations on the PersistentVolume (the Volume).

The shallow embedding below models:
  * annotation maps as association lists of string key/value pairs;
  * the diff/policy engine `decide` over driver-prefixed annotation subsets;
  * the reconciler's per-key processing step `processKey` with a backend oracle;
  * the single-flight work queue as a state machine;
  * the protocol client's `Modify` from pkg/client/csi_client.go;
  * the startup sequence and controller wiring of cmd/main.go.

The controller and modifier package bodies are not among the provided sources (only
their test file and their callers are), so those parts are modelled from the spec,
constrained by the behaviour asserted in the controller test file.
-/

namespace VolMod

/-- An annotation map: an association list from string keys to string values.
The first binding of a key wins on lookup. -/
abbrev AnnMap : Type := List (String × String)

/-- Lookup of a key in an annotation map. -/
def lookupA (anns : AnnMap) (k : String) : Option String :=
  match anns with
  | [] => none
  | (k', v) :: t => if k' = k then some v else lookupA t k

/-- The keys of an annotation map. -/
def keysA (anns : AnnMap) : List String :=
  anns.map Prod.fst

/-- Filter an annotation map by a predicate on keys. -/
def filterKeys (p : String → Bool) (anns : AnnMap) : AnnMap :=
  match anns with
  | [] => []
  | (k, v) :: t => if p k then (k, v) :: filterKeys p t else filterKeys p t

theorem lookupA_filterKeys (p : String → Bool) (anns : AnnMap) (k : String) :
    lookupA (filterKeys p anns) k = if p k then lookupA anns k else none := by
  induction anns with
  | nil => simp [filterKeys, lookupA]
  | cons kv t ih =>
    obtain ⟨k', v⟩ := kv
    by_cases hk : k' = k
    · subst hk
      by_cases hp : p k'
      · simp [filterKeys, hp, lookupA]
      · simp [filterKeys, hp, lookupA, ih]
    · by_cases hp : p k'
      · simp [filterKeys, hp, lookupA, hk, ih]
      · simp [filterKeys, hp, lookupA, hk, ih]

theorem lookupA_eq_none_of_not_mem_keys (anns : AnnMap) (k : String)
    (h : k ∉ keysA anns) : lookupA anns k = none := by
  induction anns with
  | nil => rfl
  | cons kv t ih =>
    obtain ⟨k', v⟩ := kv
    simp only [keysA, List.map_cons, List.mem_cons, not_or] at h
    rw [lookupA, if_neg (fun he => h.1 he.symm)]
    exact ih h.2

theorem mem_keys_of_lookupA_ne_none (anns : AnnMap) (k : String)
    (h : lookupA anns k ≠ none) : k ∈ keysA anns := by
  by_contra hmem
  exact h (lookupA_eq_none_of_not_mem_keys anns k hmem)

/-- `underDriver d k` holds when annotation key `k` lies in the driver's namespace,
i.e. starts with `d ++ "/"` (annotation schema: keys of the form `<driverName>/<paramName>`). -/
def underDriver (d k : String) : Bool :=
  List.isPrefixOf (d ++ "/").data k.data

/-- Modelled from the spec: the reserved per-driver annotation key that marks a
modification as in progress.  It is excluded from the diffed parameter set and never
sent to the backend.  The exact key string is not among the provided sources; only its
existence and its driver-prefixed shape (`<driverName>/<name>`) are specified. -/
def markerKey (d : String) : String :=
  d ++ "/modification-in-progress"

/-- The reserved volume-type parameter key, `<driverName>/volumeType` (the controller
test uses the literal key `ebs.csi.aws.com/volumeType`). -/
def volTypeKey (d : String) : String :=
  d ++ "/volumeType"

theorem underDriver_append (d s : String) : underDriver d (d ++ "/" ++ s) = true := by
  unfold underDriver
  rw [List.isPrefixOf_iff_prefix]
  rw [String.data_append (d ++ "/") s]
  exact List.prefix_append _ _

theorem underDriver_markerKey (d : String) : underDriver d (markerKey d) = true := by
  have h : markerKey d = d ++ "/" ++ "modification-in-progress" := by
    unfold markerKey
    rw [String.append_assoc]
    rfl
  rw [h]
  exact underDriver_append d _

theorem underDriver_volTypeKey (d : String) : underDriver d (volTypeKey d) = true := by
  have h : volTypeKey d = d ++ "/" ++ "volumeType" := by
    unfold volTypeKey
    rw [String.append_assoc]
    rfl
  rw [h]
  exact underDriver_append d _

/-- Modelled from the spec: the driver-prefixed parameter set extracted from an
annotation map — all keys under the driver prefix except the in-progress marker.
For a Claim this is the desired parameter set; for a Volume, the applied set. -/
def driverParams (d : String) (anns : AnnMap) : AnnMap :=
  filterKeys (fun k => underDriver d k && !(k == markerKey d)) anns

theorem lookupA_driverParams (d : String) (anns : AnnMap) (k : String) :
    lookupA (driverParams d anns) k =
      if underDriver d k && !(k == markerKey d) then lookupA anns k else none :=
  lookupA_filterKeys _ anns k

theorem mem_keys_driverParams (d : String) (anns : AnnMap) (k : String)
    (h : k ∈ keysA (driverParams d anns)) : underDriver d k = true := by
  unfold driverParams at h
  induction anns with
  | nil => simp [filterKeys, keysA] at h
  | cons kv t ih =>
    obtain ⟨k', v⟩ := kv
    by_cases hp : (underDriver d k' && !(k' == markerKey d)) = true
    · simp only [filterKeys, hp, if_pos, keysA, List.map_cons, List.mem_cons] at h
      rcases h with h | h
      · subst h
        exact (Bool.and_eq_true _ _).mp hp |>.1
      · exact ih (by simpa [keysA] using h)
    · simp only [filterKeys, hp, if_neg, Bool.false_eq_true, not_false_iff] at h
      exact ih h

/-- A key on which two parameter sets disagree. -/
def keysDiffer (a b : AnnMap) (k : String) : Bool :=
  !(lookupA a k == lookupA b k)

/-- All keys appearing in either parameter set, deduplicated. -/
def candKeys (a b : AnnMap) : List String :=
  (keysA a ++ keysA b).dedup

/-- The keys on which two parameter sets disagree. -/
def differingKeys (a b : AnnMap) : List String :=
  (candKeys a b).filter (keysDiffer a b)

theorem differingKeys_nil_iff (a b : AnnMap) :
    differingKeys a b = [] ↔ ∀ k, lookupA a k = lookupA b k := by
  unfold differingKeys
  rw [List.filter_eq_nil_iff]
  constructor
  · intro h k
    by_cases hmem : k ∈ candKeys a b
    · have := h k hmem
      unfold keysDiffer at this
      simpa using this
    · unfold candKeys at hmem
      rw [List.mem_dedup, List.mem_append] at hmem
      push_neg at hmem
      rw [lookupA_eq_none_of_not_mem_keys a k hmem.1,
        lookupA_eq_none_of_not_mem_keys b k hmem.2]
  · intro h k _
    unfold keysDiffer
    simp [h k]

theorem mem_differingKeys (a b : AnnMap) (k : String)
    (h : lookupA a k ≠ lookupA b k) : k ∈ differingKeys a b := by
  unfold differingKeys
  rw [List.mem_filter]
  refine ⟨?_, by simp [keysDiffer, h]⟩
  unfold candKeys
  rw [List.mem_dedup, List.mem_append]
  by_cases ha : lookupA a k = none
  · have hb : lookupA b k ≠ none := fun hb => h (ha.trans hb.symm)
    exact Or.inr (mem_keys_of_lookupA_ne_none b k hb)
  · exact Or.inl (mem_keys_of_lookupA_ne_none a k ha)

/-- The result of the diff/policy engine: either skip (with a policy-rejection flag
distinguishing the ordinary no-op skip from a policy rejection), or apply with the
parameter set to send. -/
inductive Decision where
  | skip (rejected : Bool)
  | apply (params : AnnMap)
  deriving DecidableEq

/-- Modelled from the spec: the diff/policy engine.
`decide claimAnns volAnns d allow` extracts the desired parameter set from the Claim's
annotations and the applied set from the Volume's annotations (both restricted to the
driver prefix, excluding the in-progress marker).  If they agree it skips; if the only
differing key is the reserved volume-type parameter and volume-type modification is not
allowed, it skips with a policy rejection; otherwise it applies the desired set, with
the volume-type key withheld from the outgoing set exactly when the flag is off. -/
def decide (claimAnns volAnns : AnnMap) (d : String) (allow : Bool) : Decision :=
  if (differingKeys (driverParams d claimAnns) (driverParams d volAnns)).isEmpty then
    .skip false
  else if !allow &&
      (differingKeys (driverParams d claimAnns) (driverParams d volAnns) ==
        [volTypeKey d]) then
    .skip true
  else
    .apply (if allow then driverParams d claimAnns
            else filterKeys (fun k => !(k == volTypeKey d)) (driverParams d claimAnns))

example :
    decide [("ebs.csi.aws.com/iops", "3000")] [] "ebs.csi.aws.com" false =
      .apply [("ebs.csi.aws.com/iops", "3000")] := by decide

example :
    decide [("ebs.csi.aws.com/volumeType", "io2")] [] "ebs.csi.aws.com" false =
      .skip true := by decide

example :
    decide [("ebs.csi.aws.com/volumeType", "io2")] [] "ebs.csi.aws.com" true =
      .apply [("ebs.csi.aws.com/volumeType", "io2")] := by decide

example :
    decide [("ebs.csi.aws.com/iops", "3000")] [("ebs.csi.aws.com/iops", "3000")]
      "ebs.csi.aws.com" false = .skip false := by decide

example :
    decide [("ebs.csi.aws.com/volumeType", "io2"), ("ebs.csi.aws.com/iops", "5000")]
      [] "ebs.csi.aws.com" false = .apply [("ebs.csi.aws.com/iops", "5000")] := by decide

/-- Set (or overwrite) one annotation key. -/
def setAnn (anns : AnnMap) (k v : String) : AnnMap :=
  filterKeys (fun k' => !(k' == k)) anns ++ [(k, v)]

/-- Remove one annotation key. -/
def removeAnn (anns : AnnMap) (k : String) : AnnMap :=
  filterKeys (fun k' => !(k' == k)) anns

/-- Merge `upd` into `base`: every binding of `upd` is written on top of `base`,
all other bindings of `base` are kept (merge, not replace).  Written right to left so
that, matching `lookupA`, the first binding of a key in `upd` is the one that ends up
in the result; for maps with unique keys — every real annotation map — the write
order is irrelevant. -/
def mergeAnns (base upd : AnnMap) : AnnMap :=
  upd.foldr (fun kv acc => setAnn acc kv.1 kv.2) base

theorem lookupA_append (a b : AnnMap) (k : String) :
    lookupA (a ++ b) k =
      match lookupA a k with
      | some v => some v
      | none => lookupA b k := by
  induction a with
  | nil => rfl
  | cons kv t ih =>
    obtain ⟨k', v⟩ := kv
    by_cases h : k' = k
    · subst h
      simp [lookupA]
    · simp [lookupA, h, ih]

theorem lookupA_setAnn (anns : AnnMap) (k v k' : String) :
    lookupA (setAnn anns k v) k' = if k' = k then some v else lookupA anns k' := by
  unfold setAnn
  rw [lookupA_append, lookupA_filterKeys]
  by_cases h : k' = k
  · subst h
    simp [lookupA]
  · have hb : (!(k' == k)) = true := by simp [h]
    rw [if_pos hb, if_neg h]
    cases hl : lookupA anns k' with
    | some w => rfl
    | none =>
      simp only [lookupA]
      rw [if_neg (fun he => h he.symm)]

theorem lookupA_removeAnn (anns : AnnMap) (k k' : String) :
    lookupA (removeAnn anns k) k' = if k' = k then none else lookupA anns k' := by
  unfold removeAnn
  rw [lookupA_filterKeys]
  by_cases h : k' = k
  · simp [h]
  · simp [h]

theorem lookupA_mergeAnns (base upd : AnnMap) (k : String) :
    lookupA (mergeAnns base upd) k =
      match lookupA upd k with
      | some w => some w
      | none => lookupA base k := by
  induction upd with
  | nil => rfl
  | cons kv t ih =>
    obtain ⟨k', v⟩ := kv
    show lookupA (setAnn (mergeAnns base t) k' v) k = _
    rw [lookupA_setAnn]
    by_cases h : k = k'
    · rw [if_pos h]
      simp only [lookupA]
      rw [if_pos h.symm]
    · rw [if_neg h, ih]
      simp only [lookupA]
      rw [if_neg (fun he => h he.symm)]

theorem lookupA_mergeAnns_of_not_mem (base upd : AnnMap) (k : String)
    (h : k ∉ keysA upd) : lookupA (mergeAnns base upd) k = lookupA base k := by
  rw [lookupA_mergeAnns, lookupA_eq_none_of_not_mem_keys upd k h]

/-- A Claim (PersistentVolumeClaim): object identity plus its annotation map. -/
structure Claim where
  name : String
  anns : AnnMap
  deriving DecidableEq

/-- A Volume (PersistentVolume): the backend volume handle plus its annotation map. -/
structure Volume where
  volumeID : String
  anns : AnnMap
  deriving DecidableEq

/-- Result of one backend modification call: success, a transient (retryable) error,
or a validation/argument (terminal) error. -/
inductive ModResult where
  | ok
  | transientErr (msg : String)
  | invalidErr (msg : String)
  deriving DecidableEq

/-- One outbound `ModifyVolumeProperties` call issued by the reconciler:
volume handle and the parameter map sent. -/
structure ModCall where
  volumeID : String
  params : AnnMap
  deriving DecidableEq

/-- Outcome of one processing attempt for a dequeued key. -/
inductive Outcome where
  | applied
  | rejected
  | retrying
  | deferred
  deriving DecidableEq

/-- Result of one processing attempt: its outcome, the backend calls it issued, and the
resulting Volume state. -/
structure StepResult where
  outcome : Outcome
  calls : List ModCall
  vol : Option Volume
  deriving DecidableEq

/-- Strip the `<driverName>/` prefix from each parameter key, producing the parameter
names sent on the wire (the test scenario expects `Modify("v1", {iops:"3000"}, ctx)`). -/
def stripPfxParams (d : String) (ps : AnnMap) : AnnMap :=
  ps.map (fun kv => (kv.1.drop (d.length + 1), kv.2))

/-- Whether an outcome counts as a failure for the queue's rate limiter: only a
retryable failure does; a deferred (unbound-Claim) attempt is re-queued without
counting as a failure. -/
def countsAsFailure : Outcome → Bool
  | .retrying => true
  | _ => false

/-- Whether an outcome puts the key back on the queue. -/
def requeues : Outcome → Bool
  | .retrying => true
  | .deferred => true
  | _ => false

/-- Modelled from the spec: the reconciler's processing step for one dequeued key
(controller source is not among the provided files).  Steps, in spec order:
re-read Claim and bound Volume (the inputs); defer when the Claim is unbound; run the
diff/policy engine; on `apply`, write the in-progress marker on the Volume, issue one
backend call, and on success merge the sent parameter set into the Volume's
annotations and clear the marker.  On failure the marker is cleared again and no
driver-prefixed annotation is recorded (the controller test's `verifyNoAnnotationsOnPV`
requires a failed modification to leave no driver-prefixed annotation on the PV);
transient errors retry, validation errors are terminal. -/
def processKey (d : String) (allow : Bool) (claim : Claim) (vol : Option Volume)
    (backend : String → AnnMap → ModResult) : StepResult :=
  match vol with
  | none => { outcome := .deferred, calls := [], vol := none }
  | some v =>
    match decide claim.anns v.anns d allow with
    | .skip false => { outcome := .applied, calls := [], vol := some v }
    | .skip true => { outcome := .rejected, calls := [], vol := some v }
    | .apply ps =>
      match backend v.volumeID (stripPfxParams d ps) with
      | .ok =>
        { outcome := .applied, calls := [⟨v.volumeID, stripPfxParams d ps⟩],
          vol := some ⟨v.volumeID,
            removeAnn (mergeAnns (setAnn v.anns (markerKey d) "true") ps) (markerKey d)⟩ }
      | .transientErr _ =>
        { outcome := .retrying, calls := [⟨v.volumeID, stripPfxParams d ps⟩], vol := some v }
      | .invalidErr _ =>
        { outcome := .rejected, calls := [⟨v.volumeID, stripPfxParams d ps⟩], vol := some v }

/-- Modelled from the spec: the Claim-update event filter.  A work item is enqueued
only when the driver-prefixed annotation subset of the new Claim differs from that of
the old one; resyncs and unrelated field changes (capacity, status) never enqueue. -/
def enqueueOnUpdate (d : String) (oldAnns newAnns : AnnMap) : Bool :=
  !(differingKeys (driverParams d oldAnns) (driverParams d newAnns)).isEmpty

/-- Modelled from the spec: handling of one Claim-update event end to end — the event
filter decides whether to enqueue, and an enqueued key is processed by `processKey`.
Returns the backend calls that result from the event. -/
def handleUpdate (d : String) (allow : Bool) (oldC newC : Claim) (vol : Option Volume)
    (backend : String → AnnMap → ModResult) : List ModCall :=
  if enqueueOnUpdate d oldC.anns newC.anns then (processKey d allow newC vol backend).calls
  else []

/-- Modelled from the spec: the per-key work queue.  `queue` holds keys ready to be
dequeued, `processing` holds keys currently held by a worker, and `dirty` holds keys
whose work is pending (queued or re-added while being processed).  A key added while
it is being processed goes to `dirty` only, and is moved back onto the queue when the
worker marks it done — this is what makes a key in `processing` impossible to dequeue
again before its attempt finishes. -/
structure WorkQueue where
  queue : List String
  dirty : List String
  processing : List String
  deriving DecidableEq

/-- Add a key to the work queue.  A key already pending is ignored; a key currently
being processed is recorded as dirty but not made available for dequeue. -/
def addKey (s : WorkQueue) (k : String) : WorkQueue :=
  if k ∈ s.dirty then s
  else if k ∈ s.processing then { s with dirty := k :: s.dirty }
  else { s with dirty := k :: s.dirty, queue := s.queue ++ [k] }

/-- Dequeue the next key, marking it as being processed. -/
def getKey (s : WorkQueue) : Option (String × WorkQueue) :=
  match s.queue with
  | [] => none
  | k :: rest =>
    some (k, { queue := rest, dirty := s.dirty.erase k, processing := k :: s.processing })

/-- A worker finishes its attempt on a key (success, terminal failure, or re-queue):
the key leaves `processing`, and if it was re-added meanwhile it becomes dequeuable
again. -/
def doneKey (s : WorkQueue) (k : String) : WorkQueue :=
  let s' : WorkQueue := { s with processing := s.processing.erase k }
  if k ∈ s'.dirty then { s' with queue := s'.queue ++ [k] } else s'

/-- The empty work queue. -/
def emptyQueue : WorkQueue :=
  { queue := [], dirty := [], processing := [] }

/-- The work-queue states reachable through its protocol: workers only mark done the
keys they are currently processing. -/
inductive QReach : WorkQueue → Prop where
  | init : QReach emptyQueue
  | add (s : WorkQueue) (k : String) : QReach s → QReach (addKey s k)
  | get (s : WorkQueue) (k : String) (s' : WorkQueue) :
      QReach s → getKey s = some (k, s') → QReach s'
  | done (s : WorkQueue) (k : String) :
      QReach s → k ∈ s.processing → QReach (doneKey s k)

/-- The work-queue invariant: ready keys are unique, never concurrently processed,
and always pending; processing keys are unique. -/
def QInv (s : WorkQueue) : Prop :=
  s.queue.Nodup ∧ s.processing.Nodup ∧
    (∀ k ∈ s.queue, k ∉ s.processing) ∧ (∀ k ∈ s.queue, k ∈ s.dirty)

/-- The embedding of `Modify` from pkg/client/csi_client.go: the request message the
call constructs — name, parameters and context are carried verbatim. -/
structure ModifyVolumePropertiesRequest where
  name : String
  parameters : AnnMap
  reqContext : AnnMap
  deriving DecidableEq

/-- The embedding of `(*client).Modify` from pkg/client/csi_client.go.  The underlying
gRPC stub is an oracle mapping the request to `none` (no error) or `some e` (an error).
The function builds one `ModifyVolumePropertiesRequest` from its arguments, issues it
once, and returns the RPC's error unchanged.  The result records the requests issued
and the returned error. -/
def clientModify (rpcSend : ModifyVolumePropertiesRequest → Option String)
    (volumeID : String) (params reqContext : AnnMap) :
    List ModifyVolumePropertiesRequest × Option String :=
  let req : ModifyVolumePropertiesRequest :=
    { name := volumeID, parameters := params, reqContext := reqContext }
  ([req], rpcSend req)

/-- The arguments of interest in a `NewModifyController` call: the driver name, the
`retryFailure` argument, and the `enableVolumeTypeModification` argument when one is
passed at all (`none` when the call site passes no such argument). -/
structure ModifyControllerArgs where
  name : String
  retryFailure : Bool
  enableVolumeTypeModification : Option Bool
  deriving DecidableEq

/-- Result of running `main`'s startup sequence: a fatal exit (klog.Fatal) before the
controller is constructed, or a running controller with the arguments it was
constructed with. -/
inductive StartupResult where
  | fatal (msg : String)
  | running (args : ModifyControllerArgs)
  deriving DecidableEq

/-- Oracles for the fallible steps of `main` from cmd/main.go, in source order:
building the REST config, creating the kube client, creating the CSI client
(`csi.New`), the capability probe (`SupportsVolumeModification`), obtaining the driver
name (`GetDriverName`), and constructing the modifier (`modifier.NewFromClient`).
`none` / `.ok` means the step succeeded. -/
structure MainDeps where
  buildConfig : Option String
  newKubeClient : Option String
  newCsiClient : Option String
  supportsVolumeModification : Option String
  getDriverName : Except String String
  newFromClient : Option String

/-- The embedding of `main` from cmd/main.go (startup through controller
construction).  Each fallible step `klog.Fatal`s on error, in source order; when all
succeed, `NewModifyController` is called with `retryFailure` hardcoded to `true` and
with no `enableVolumeTypeModification` argument passed. -/
def mainStartup (deps : MainDeps) : StartupResult :=
  match deps.buildConfig with
  | some e => .fatal e
  | none =>
    match deps.newKubeClient with
    | some e => .fatal e
    | none =>
      match deps.newCsiClient with
      | some e => .fatal e
      | none =>
        match deps.supportsVolumeModification with
        | some e => .fatal ("CSI driver does not support volume modification: " ++ e)
        | none =>
          match deps.getDriverName with
          | .error e => .fatal ("get driver name failed: " ++ e)
          | .ok driverName =>
            match deps.newFromClient with
            | some e => .fatal e
            | none =>
              .running { name := driverName, retryFailure := true,
                         enableVolumeTypeModification := none }

/-- The `NewModifyController` call of the controller test (`TestControllerRun`):
`retryFailure` is passed as `false` and `enableVolumeTypeModification` is passed
explicitly from the test case. -/
def testWiringArgs (driverName : String) (enable : Bool) : ModifyControllerArgs :=
  { name := driverName, retryFailure := false, enableVolumeTypeModification := some enable }

/-- The names of every command-line flag declared in cmd/main.go. -/
def mainFlagNames : List String :=
  ["client-config-url", "kubeconfig", "resync-period", "workers", "csi-address",
   "timeout", "version", "retry-interval-start", "retry-interval-max",
   "leader-election", "leader-election-namespace", "leader-election-lease-duration",
   "leader-election-renew-deadline", "leader-election-retry-period", "http-endpoint",
   "metrics-path", "kube-api-qps", "kube-api-burst"]

/-- `hasSubChars n h` holds when `n` occurs as a contiguous substring of `h`. -/
def hasSubChars (n : List Char) : List Char → Bool
  | [] => List.isPrefixOf n []
  | c :: t => List.isPrefixOf n (c :: t) || hasSubChars n t

/-- Substring test on strings. -/
def hasSub (n h : String) : Bool :=
  hasSubChars n.data h.data

theorem qinv_empty : QInv emptyQueue := by
  refine ⟨List.nodup_nil, List.nodup_nil, ?_, ?_⟩ <;> intro k hk <;> exact absurd hk (by simp [emptyQueue])

theorem qinv_addKey (s : WorkQueue) (k : String) (h : QInv s) : QInv (addKey s k) := by
  obtain ⟨h1, h2, h3, h4⟩ := h
  unfold addKey
  by_cases hd : k ∈ s.dirty
  · simpa [hd] using ⟨h1, h2, h3, h4⟩
  · by_cases hp : k ∈ s.processing
    · refine ⟨?_, ?_, ?_, ?_⟩ <;> simp only [hd, hp, if_neg, if_pos, not_false_iff]
      · exact h1
      · exact h2
      · exact h3
      · intro j hj
        exact List.mem_cons_of_mem _ (h4 j hj)
    · have hq : k ∉ s.queue := fun hk => hd (h4 k hk)
      refine ⟨?_, ?_, ?_, ?_⟩ <;> simp only [hd, hp, if_neg, not_false_iff]
      · exact List.Nodup.append h1 (List.nodup_singleton k) (by simpa using hq)
      · exact h2
      · intro j hj
        rcases List.mem_append.mp hj with hj | hj
        · exact h3 j hj
        · rw [List.mem_singleton] at hj
          subst hj
          exact hp
      · intro j hj
        rcases List.mem_append.mp hj with hj | hj
        · exact List.mem_cons_of_mem _ (h4 j hj)
        · rw [List.mem_singleton] at hj
          subst hj
          exact List.mem_cons_self _ _

theorem qinv_getKey (s : WorkQueue) (k : String) (s' : WorkQueue) (h : QInv s)
    (hg : getKey s = some (k, s')) : QInv s' := by
  obtain ⟨h1, h2, h3, h4⟩ := h
  unfold getKey at hg
  cases hq : s.queue with
  | nil => rw [hq] at hg; exact absurd hg (by simp)
  | cons k0 rest =>
    rw [hq] at hg
    simp only [Option.some.injEq, Prod.mk.injEq] at hg
    obtain ⟨hk0, hs'⟩ := hg
    subst hk0
    subst hs'
    rw [hq] at h1 h3 h4
    have hknr : k0 ∉ rest := (List.nodup_cons.mp h1).1
    have hrest : rest.Nodup := (List.nodup_cons.mp h1).2
    refine ⟨hrest, ?_, ?_, ?_⟩
    · exact List.nodup_cons.mpr ⟨h3 k0 (List.mem_cons_self _ _), h2⟩
    · intro j hj
      rw [List.mem_cons, not_or]
      refine ⟨fun he => hknr (he ▸ hj), h3 j (List.mem_cons_of_mem _ hj)⟩
    · intro j hj
      exact (List.mem_erase_of_ne (fun he => hknr (by rwa [he] at hj))).mpr
        (h4 j (List.mem_cons_of_mem _ hj))

theorem qinv_doneKey (s : WorkQueue) (k : String) (h : QInv s) (hp : k ∈ s.processing) :
    QInv (doneKey s k) := by
  obtain ⟨h1, h2, h3, h4⟩ := h
  have hq : k ∉ s.queue := fun hk => h3 k hk hp
  have herase : (s.processing.erase k).Nodup := h2.erase k
  have hsub : ∀ j, j ∈ s.processing.erase k → j ∈ s.processing := fun j hj =>
    List.mem_of_mem_erase hj
  unfold doneKey
  by_cases hd : k ∈ s.dirty
  · refine ⟨?_, ?_, ?_, ?_⟩ <;> simp only [hd, if_pos]
    · exact List.Nodup.append h1 (List.nodup_singleton k) (by simpa using hq)
    · exact herase
    · intro j hj
      rcases List.mem_append.mp hj with hj | hj
      · exact fun hc => h3 j hj (hsub j hc)
      · rw [List.mem_singleton] at hj
        subst hj
        exact h2.not_mem_erase
    · intro j hj
      rcases List.mem_append.mp hj with hj | hj
      · exact h4 j hj
      · rw [List.mem_singleton] at hj
        subst hj
        exact hd
  · refine ⟨?_, ?_, ?_, ?_⟩ <;> simp only [hd, if_neg, not_false_iff]
    · exact h1
    · exact herase
    · exact fun j hj hc => h3 j hj (hsub j hc)
    · exact h4

theorem qinv_of_reach (s : WorkQueue) (h : QReach s) : QInv s := by
  induction h with
  | init => exact qinv_empty
  | add s k _ ih => exact qinv_addKey s k ih
  | get s k s' _ hg ih => exact qinv_getKey s k s' ih hg
  | done s k _ hp ih => exact qinv_doneKey s k ih hp

theorem decide_eq_skip_false_iff (C V : AnnMap) (d : String) (allow : Bool) :
    decide C V d allow = .skip false ↔
      differingKeys (driverParams d C) (driverParams d V) = [] := by
  unfold decide
  by_cases h0 : (differingKeys (driverParams d C) (driverParams d V)).isEmpty
  · rw [if_pos h0]
    rw [List.isEmpty_iff] at h0
    simp [h0]
  · rw [if_neg h0]
    have hne : differingKeys (driverParams d C) (driverParams d V) ≠ [] :=
      fun hnil => h0 (by rw [hnil]; rfl)
    by_cases h1 : (!allow &&
        (differingKeys (driverParams d C) (driverParams d V) == [volTypeKey d])) = true
    · rw [if_pos h1]
      simp [hne]
    · rw [if_neg h1]
      simp [hne]

theorem differingKeys_driverParams_nil_iff (C V : AnnMap) (d : String) :
    differingKeys (driverParams d C) (driverParams d V) = [] ↔
      ∀ k, underDriver d k = true → k ≠ markerKey d → lookupA C k = lookupA V k := by
  rw [differingKeys_nil_iff]
  constructor
  · intro h k hu hm
    have hk := h k
    rw [lookupA_driverParams, lookupA_driverParams] at hk
    have hc : (underDriver d k && !(k == markerKey d)) = true := by simp [hu, hm]
    rwa [if_pos hc, if_pos hc] at hk
  · intro h k
    rw [lookupA_driverParams, lookupA_driverParams]
    by_cases hc : (underDriver d k && !(k == markerKey d)) = true
    · rw [if_pos hc, if_pos hc]
      obtain ⟨hu, hm⟩ := (Bool.and_eq_true _ _).mp hc
      exact h k hu (by simpa using hm)
    · rw [if_neg hc, if_neg hc]

theorem processKey_calls_of_skip (d : String) (allow : Bool) (claim : Claim) (v : Volume)
    (backend : String → AnnMap → ModResult) (r : Bool)
    (h : decide claim.anns v.anns d allow = .skip r) :
    (processKey d allow claim (some v) backend).calls = [] := by
  dsimp only [processKey]
  rw [h]
  cases r <;> rfl

theorem filter_eq_singleton (l : List String) (hl : l.Nodup) (p : String → Bool)
    (a : String) (ha : a ∈ l) (hpa : p a = true)
    (hother : ∀ b ∈ l, b ≠ a → p b = false) : l.filter p = [a] := by
  induction l with
  | nil => cases ha
  | cons x t ih =>
    have hnodup := List.nodup_cons.mp hl
    rcases List.mem_cons.mp ha with he | hmem
    · subst he
      rw [List.filter_cons_of_pos hpa]
      have ht : t.filter p = [] := by
        rw [List.filter_eq_nil_iff]
        intro b hb
        have hba : b ≠ a := fun he2 => hnodup.1 (he2 ▸ hb)
        simp [hother b (List.mem_cons_of_mem _ hb) hba]
      rw [ht]
    · have hph : p x = false :=
        hother x (List.mem_cons_self _ _) (fun he2 => hnodup.1 (he2 ▸ hmem))
      rw [List.filter_cons_of_neg (by simp [hph])]
      exact ih hnodup.2 hmem (fun b hb hba => hother b (List.mem_cons_of_mem _ hb) hba)

theorem differingKeys_eq_singleton (A B : AnnMap) (vt : String)
    (h1 : lookupA A vt ≠ lookupA B vt)
    (h2 : ∀ k, k ≠ vt → lookupA A k = lookupA B k) :
    differingKeys A B = [vt] := by
  have hmem := mem_differingKeys A B vt h1
  unfold differingKeys at hmem ⊢
  rw [List.mem_filter] at hmem
  exact filter_eq_singleton (candKeys A B) (List.nodup_dedup _) (keysDiffer A B) vt
    hmem.1 hmem.2 (fun b _ hb => by simp [keysDiffer, h2 b hb])

theorem mem_keysA_filterKeys (p : String → Bool) (anns : AnnMap) (k : String)
    (h : k ∈ keysA (filterKeys p anns)) : k ∈ keysA anns := by
  induction anns with
  | nil => cases h
  | cons kv t ih =>
    obtain ⟨k', v⟩ := kv
    by_cases hp : p k' = true
    · simp only [filterKeys, hp, if_pos, keysA, List.map_cons, List.mem_cons] at h ⊢
      rcases h with h | h
      · exact Or.inl h
      · exact Or.inr (ih h)
    · simp only [filterKeys, hp, if_neg, Bool.false_eq_true, not_false_iff] at h
      simp only [keysA, List.map_cons, List.mem_cons]
      exact Or.inr (ih h)

theorem mem_keysA_filterKeys_pred (p : String → Bool) (anns : AnnMap) (k : String)
    (h : k ∈ keysA (filterKeys p anns)) : p k = true := by
  induction anns with
  | nil => cases h
  | cons kv t ih =>
    obtain ⟨k', v⟩ := kv
    by_cases hp : p k' = true
    · simp only [filterKeys, hp, if_pos, keysA, List.map_cons, List.mem_cons] at h
      rcases h with h | h
      · rw [h]
        exact hp
      · exact ih h
    · simp only [filterKeys, hp, if_neg, Bool.false_eq_true, not_false_iff] at h
      exact ih h

theorem mem_keys_driverParams_ne_marker (d : String) (anns : AnnMap) (k : String)
    (h : k ∈ keysA (driverParams d anns)) : k ≠ markerKey d := by
  have hp := mem_keysA_filterKeys_pred _ anns k h
  have hm := ((Bool.and_eq_true _ _).mp hp).2
  simpa using hm

theorem decide_apply_keys (C V : AnnMap) (d : String) (allow : Bool) (ps : AnnMap)
    (h : decide C V d allow = .apply ps) :
    ∀ k ∈ keysA ps, underDriver d k = true := by
  intro k hk
  unfold decide at h
  by_cases h0 : (differingKeys (driverParams d C) (driverParams d V)).isEmpty
  · rw [if_pos h0] at h
    cases h
  · rw [if_neg h0] at h
    by_cases hc : (!allow &&
        (differingKeys (driverParams d C) (driverParams d V) == [volTypeKey d])) = true
    · rw [if_pos hc] at h
      cases h
    · rw [if_neg hc] at h
      cases allow with
      | false =>
        rw [if_neg (by simp)] at h
        injection h with hps
        subst hps
        exact mem_keys_driverParams d C k (mem_keysA_filterKeys _ _ k hk)
      | true =>
        rw [if_pos rfl] at h
        injection h with hps
        subst hps
        exact mem_keys_driverParams d C k hk

theorem decide_apply_ne_marker (C V : AnnMap) (d : String) (allow : Bool) (ps : AnnMap)
    (h : decide C V d allow = .apply ps) :
    ∀ k ∈ keysA ps, k ≠ markerKey d := by
  intro k hk
  unfold decide at h
  by_cases h0 : (differingKeys (driverParams d C) (driverParams d V)).isEmpty
  · rw [if_pos h0] at h
    cases h
  · rw [if_neg h0] at h
    by_cases hc : (!allow &&
        (differingKeys (driverParams d C) (driverParams d V) == [volTypeKey d])) = true
    · rw [if_pos hc] at h
      cases h
    · rw [if_neg hc] at h
      cases allow with
      | false =>
        rw [if_neg (by simp)] at h
        injection h with hps
        subst hps
        exact mem_keys_driverParams_ne_marker d C k (mem_keysA_filterKeys _ _ k hk)
      | true =>
        rw [if_pos rfl] at h
        injection h with hps
        subst hps
        exact mem_keys_driverParams_ne_marker d C k hk

/-- C1: at most one worker processes a given key at a time.  In every work-queue state
reachable through the queue's protocol, a dequeue never returns a key that is
currently being processed (and the dequeued key becomes processing), and adding a key
that is currently being processed leaves the ready queue unchanged — so a key already
processing cannot be dequeued again until its attempt finishes with `doneKey`
(success, terminal failure, or re-queue), giving at most one in-flight modification
call per volume key. -/
theorem queue_single_flight (s : WorkQueue) (h : QReach s) :
    (∀ k s', getKey s = some (k, s') → k ∉ s.processing ∧ k ∈ s'.processing) ∧
    (∀ k, k ∈ s.processing → (addKey s k).queue = s.queue) := by
  obtain ⟨h1, h2, h3, h4⟩ := qinv_of_reach s h
  constructor
  · intro k s' hg
    unfold getKey at hg
    cases hq : s.queue with
    | nil => rw [hq] at hg; exact absurd hg (by simp)
    | cons k0 rest =>
      rw [hq] at hg
      simp only [Option.some.injEq, Prod.mk.injEq] at hg
      obtain ⟨hk0, hs'⟩ := hg
      subst hk0
      subst hs'
      rw [hq] at h3
      exact ⟨h3 k0 (List.mem_cons_self _ _), List.mem_cons_self _ _⟩
  · intro k hp
    unfold addKey
    by_cases hd : k ∈ s.dirty
    · simp [hd]
    · simp [hd, hp]

/-- Witness for C1 at a concrete reachable state: after enqueueing key "a" and a
worker dequeuing it, re-adding "a" does not put it back on the ready queue. -/
theorem queue_single_flight_witness :
    (addKey { queue := [], dirty := [], processing := ["a"] } "a").queue =
      ({ queue := [], dirty := [], processing := ["a"] } : WorkQueue).queue :=
  (queue_single_flight { queue := [], dirty := [], processing := ["a"] }
    (QReach.get (addKey emptyQueue "a") "a"
      { queue := [], dirty := [], processing := ["a"] }
      (QReach.add emptyQueue "a" QReach.init) (by decide))).2 "a" (by decide)

/-- C2: the diff/policy engine returns the ordinary skip exactly when the
driver-prefixed annotation subset of the Claim equals that of the Volume by key and
value, ignoring the in-progress marker; and whenever it returns any skip (ordinary or
policy-rejected), processing the key issues no backend call — so re-processing an
unchanged generation issues zero modification calls. -/
theorem decide_skip_iff_unchanged (C V : AnnMap) (d : String) (allow : Bool) :
    (decide C V d allow = .skip false ↔
      ∀ k, underDriver d k = true → k ≠ markerKey d → lookupA C k = lookupA V k) ∧
    (∀ r name vid backend, decide C V d allow = .skip r →
      (processKey d allow ⟨name, C⟩ (some ⟨vid, V⟩) backend).calls = []) := by
  constructor
  · rw [decide_eq_skip_false_iff]
    exact differingKeys_driverParams_nil_iff C V d
  · intro r name vid backend h
    exact processKey_calls_of_skip d allow ⟨name, C⟩ ⟨vid, V⟩ backend r h

/-- Witness for C2: a resync with identical driver-prefixed annotations issues no
backend call. -/
theorem decide_skip_iff_unchanged_witness :
    (processKey "drv" false ⟨"c", [("drv/iops", "3000")]⟩
      (some ⟨"v1", [("drv/iops", "3000")]⟩) (fun _ _ => .ok)).calls = [] :=
  (decide_skip_iff_unchanged [("drv/iops", "3000")] [("drv/iops", "3000")] "drv"
    false).2 false "c" "v1" (fun _ _ => .ok) (by decide)

/-- C3: when the reserved volume-type parameter is the only differing driver-prefixed
key, `decide` with the flag off skips with the policy-rejection signal and processing
issues zero backend calls, while with the flag on the key is treated like any other
parameter (the full desired set is applied); and when other driver-prefixed keys also
differ with the flag off, the modification proceeds with only the volume-type key
withheld from the outgoing parameter set. -/
theorem decide_volume_type_policy (C V : AnnMap) (d : String) :
    ((lookupA (driverParams d C) (volTypeKey d) ≠ lookupA (driverParams d V) (volTypeKey d) →
      (∀ k, k ≠ volTypeKey d → lookupA (driverParams d C) k = lookupA (driverParams d V) k) →
      decide C V d false = .skip true ∧
      (∀ name vid backend,
        (processKey d false ⟨name, C⟩ (some ⟨vid, V⟩) backend).calls = []) ∧
      decide C V d true = .apply (driverParams d C))) ∧
    ((∃ k0, k0 ≠ volTypeKey d ∧
        lookupA (driverParams d C) k0 ≠ lookupA (driverParams d V) k0) →
      ∃ ps, decide C V d false = .apply ps ∧ lookupA ps (volTypeKey d) = none ∧
        ∀ k, k ≠ volTypeKey d → lookupA ps k = lookupA (driverParams d C) k) := by
  constructor
  · intro h1 h2
    have hsingle : differingKeys (driverParams d C) (driverParams d V) = [volTypeKey d] :=
      differingKeys_eq_singleton _ _ _ h1 h2
    have hskip : decide C V d false = .skip true := by
      unfold decide
      rw [hsingle]
      simp
    refine ⟨hskip, ?_, ?_⟩
    · intro name vid backend
      exact processKey_calls_of_skip d false ⟨name, C⟩ ⟨vid, V⟩ backend true hskip
    · unfold decide
      rw [hsingle]
      simp
  · rintro ⟨k0, hk0, hdk⟩
    have hmem := mem_differingKeys _ _ k0 hdk
    have hne : differingKeys (driverParams d C) (driverParams d V) ≠ [] :=
      List.ne_nil_of_mem hmem
    have hie : (differingKeys (driverParams d C) (driverParams d V)).isEmpty = false := by
      cases hd : differingKeys (driverParams d C) (driverParams d V) with
      | nil => exact absurd hd hne
      | cons a t => rfl
    have hnvt : (differingKeys (driverParams d C) (driverParams d V) ==
        [volTypeKey d]) = false := by
      rw [beq_eq_false_iff_ne]
      intro he
      rw [he] at hmem
      exact hk0 (List.mem_singleton.mp hmem)
    refine ⟨filterKeys (fun k => !(k == volTypeKey d)) (driverParams d C), ?_, ?_, ?_⟩
    · unfold decide
      simp [hie, hnvt]
    · rw [lookupA_filterKeys]
      simp
    · intro k hk
      rw [lookupA_filterKeys]
      simp [hk]

/-- Witness for C3: a Claim whose only driver-prefixed annotation is
`drv/volumeType` is skipped with a policy rejection when the flag is off, and applied
as-is when the flag is on. -/
theorem decide_volume_type_policy_witness :
    decide [("drv/volumeType", "io2")] [] "drv" false = .skip true ∧
    decide [("drv/volumeType", "io2")] [] "drv" true =
      .apply (driverParams "drv" [("drv/volumeType", "io2")]) := by
  have h := (decide_volume_type_policy [("drv/volumeType", "io2")] [] "drv").1
    (by decide)
    (fun k hk => by
      have hvt : volTypeKey "drv" = "drv/volumeType" := by decide
      have hC : driverParams "drv" [("drv/volumeType", "io2")] =
          [("drv/volumeType", "io2")] := by decide
      have hV : driverParams "drv" ([] : AnnMap) = [] := rfl
      rw [hC, hV]
      rw [hvt] at hk
      simp only [lookupA]
      rw [if_neg (fun he => hk he.symm)])
  exact ⟨h.1, h.2.2⟩

/-- C4: when the backend modification call fails (any non-nil error), no driver-
prefixed applied-state annotation is written onto the Volume — its state is left
exactly as it was — and the attempt does not end in `Applied`. -/
theorem failure_writes_no_applied_state (d : String) (allow : Bool) (claim : Claim)
    (v : Volume) (backend : String → AnnMap → ModResult) (ps : AnnMap)
    (h1 : decide claim.anns v.anns d allow = .apply ps)
    (h2 : backend v.volumeID (stripPfxParams d ps) ≠ .ok) :
    (processKey d allow claim (some v) backend).vol = some v ∧
    (processKey d allow claim (some v) backend).outcome ≠ .applied ∧
    (∀ v' k, (processKey d allow claim (some v) backend).vol = some v' →
      underDriver d k = true → lookupA v'.anns k = lookupA v.anns k) := by
  simp only [processKey, h1]
  cases hb : backend v.volumeID (stripPfxParams d ps) with
  | ok => exact absurd hb h2
  | transientErr m =>
    refine ⟨rfl, by simp, ?_⟩
    intro v' k hv' _
    simp only [Option.some.injEq] at hv'
    subst hv'
    rfl
  | invalidErr m =>
    refine ⟨rfl, by simp, ?_⟩
    intro v' k hv' _
    simp only [Option.some.injEq] at hv'
    subst hv'
    rfl

/-- Witness for C4: a terminal backend error leaves the Volume's annotations exactly
as they were. -/
theorem failure_writes_no_applied_state_witness :
    (processKey "drv" false ⟨"c", [("drv/iops", "5000")]⟩ (some ⟨"v1", []⟩)
      (fun _ _ => .invalidErr "bad parameter")).vol = some ⟨"v1", []⟩ :=
  (failure_writes_no_applied_state "drv" false ⟨"c", [("drv/iops", "5000")]⟩ ⟨"v1", []⟩
    (fun _ _ => .invalidErr "bad parameter") [("drv/iops", "5000")]
    (by decide) (by decide)).1

/-- C5: after a successful modification, the applied parameter set is written onto
the Volume's annotations as a merge rather than a replacement — every binding of the
sent parameter set ends up on the Volume with its value, every annotation key outside
the driver prefix keeps its previous value — and the in-progress marker is absent
afterwards. -/
theorem success_merges_and_clears_marker (d : String) (allow : Bool) (claim : Claim)
    (v : Volume) (backend : String → AnnMap → ModResult) (ps : AnnMap)
    (h1 : decide claim.anns v.anns d allow = .apply ps)
    (h2 : backend v.volumeID (stripPfxParams d ps) = .ok) :
    (processKey d allow claim (some v) backend).outcome = .applied ∧
    (∀ v', (processKey d allow claim (some v) backend).vol = some v' →
      (∀ k w, lookupA ps k = some w → lookupA v'.anns k = some w) ∧
      (∀ k, underDriver d k = false → lookupA v'.anns k = lookupA v.anns k) ∧
      lookupA v'.anns (markerKey d) = none) := by
  have hkeys := decide_apply_keys claim.anns v.anns d allow ps h1
  have hnomarker := decide_apply_ne_marker claim.anns v.anns d allow ps h1
  simp only [processKey, h1, h2]
  refine ⟨trivial, ?_⟩
  intro v' hv'
  simp only [Option.some.injEq] at hv'
  subst hv'
  refine ⟨?_, ?_, ?_⟩
  · intro k w hw
    have hmem : k ∈ keysA ps :=
      mem_keys_of_lookupA_ne_none ps k (by rw [hw]; exact fun he => Option.noConfusion he)
    have hkm : k ≠ markerKey d := hnomarker k hmem
    rw [lookupA_removeAnn, if_neg hkm, lookupA_mergeAnns, hw]
  · intro k hk
    have hkm : k ≠ markerKey d := fun he => by
      rw [he, underDriver_markerKey d] at hk
      exact absurd hk (by decide)
    rw [lookupA_removeAnn, if_neg hkm]
    rw [lookupA_mergeAnns_of_not_mem _ _ _
      (fun hmem => absurd hk (by rw [hkeys k hmem]; decide))]
    rw [lookupA_setAnn, if_neg hkm]
  · rw [lookupA_removeAnn, if_pos rfl]

/-- Witness for C5: at a concrete input the successful modification writes
`drv/iops = 3000` onto the Volume, keeps the unrelated annotation `other = x`, and
leaves no in-progress marker. -/
theorem success_merges_and_clears_marker_witness :
    lookupA [("other", "x"), ("drv/iops", "3000")] "drv/iops" = some "3000" ∧
    lookupA [("other", "x"), ("drv/iops", "3000")] "other" = some "x" ∧
    lookupA [("other", "x"), ("drv/iops", "3000")] (markerKey "drv") = none := by
  have h := (success_merges_and_clears_marker "drv" false ⟨"c", [("drv/iops", "3000")]⟩
    ⟨"v1", [("other", "x")]⟩ (fun _ _ => .ok) [("drv/iops", "3000")]
    (by decide) rfl).2 ⟨"v1", [("other", "x"), ("drv/iops", "3000")]⟩ (by decide)
  exact ⟨h.1 "drv/iops" "3000" (by decide),
    (h.2.1 "other" (by decide)).trans (by decide), h.2.2⟩

/-- C6: a Claim update whose driver-prefixed annotation subset is unchanged (a pure
resync, or a capacity/status-only change) never enqueues a work item, and handling
the event issues zero backend modification calls. -/
theorem unchanged_update_never_enqueues (d : String) (allow : Bool) (oldC newC : Claim)
    (vol : Option Volume) (backend : String → AnnMap → ModResult)
    (h : ∀ k, underDriver d k = true → lookupA oldC.anns k = lookupA newC.anns k) :
    enqueueOnUpdate d oldC.anns newC.anns = false ∧
    handleUpdate d allow oldC newC vol backend = [] := by
  have hdiff : differingKeys (driverParams d oldC.anns) (driverParams d newC.anns) = [] := by
    rw [differingKeys_driverParams_nil_iff]
    exact fun k hu _ => h k hu
  have he : enqueueOnUpdate d oldC.anns newC.anns = false := by
    unfold enqueueOnUpdate
    rw [hdiff]
    rfl
  exact ⟨he, by simp [handleUpdate, he]⟩

/-- Witness for C6: a capacity-only Claim update (no driver-prefixed annotations on
either version) results in no enqueue and no backend call. -/
theorem unchanged_update_never_enqueues_witness :
    handleUpdate "drv" false ⟨"c", [("capacity", "10Gi")]⟩ ⟨"c", [("capacity", "35Gi")]⟩
      (some ⟨"v1", []⟩) (fun _ _ => .ok) = [] :=
  (unchanged_update_never_enqueues "drv" false ⟨"c", [("capacity", "10Gi")]⟩
    ⟨"c", [("capacity", "35Gi")]⟩ (some ⟨"v1", []⟩) (fun _ _ => .ok)
    (fun k hk => by
      by_cases hc : "capacity" = k
      · subst hc
        exact absurd hk (by decide)
      · simp [lookupA, hc])).2

/-- C7: a dequeued key whose Claim is not yet bound to a Volume defers — the key is
re-queued without counting as a failure and no backend call is made — and once the
Claim is bound, a subsequent attempt performs the modification (one backend call,
ending `Applied`). -/
theorem unbound_claim_defers (d : String) (allow : Bool) (claim : Claim)
    (backend : String → AnnMap → ModResult) :
    ((processKey d allow claim none backend).outcome = .deferred ∧
     (processKey d allow claim none backend).calls = [] ∧
     requeues (processKey d allow claim none backend).outcome = true ∧
     countsAsFailure (processKey d allow claim none backend).outcome = false) ∧
    (∀ v ps, decide claim.anns v.anns d allow = .apply ps →
      backend v.volumeID (stripPfxParams d ps) = .ok →
      (processKey d allow claim (some v) backend).outcome = .applied ∧
      (processKey d allow claim (some v) backend).calls =
        [⟨v.volumeID, stripPfxParams d ps⟩]) := by
  refine ⟨⟨rfl, rfl, rfl, rfl⟩, ?_⟩
  intro v ps h1 h2
  simp only [processKey, h1, h2]
  exact ⟨trivial, trivial⟩

/-- Witness for C7: once the Claim is bound, one modification call is issued. -/
theorem unbound_claim_defers_witness :
    (processKey "drv" false ⟨"c", [("drv/iops", "3000")]⟩ (some ⟨"v1", []⟩)
      (fun _ _ => .ok)).calls =
      [⟨"v1", stripPfxParams "drv" [("drv/iops", "3000")]⟩] :=
  ((unbound_claim_defers "drv" false ⟨"c", [("drv/iops", "3000")]⟩ (fun _ _ => .ok)).2
    ⟨"v1", []⟩ [("drv/iops", "3000")] (by decide) rfl).2

/-- C8: a call to the protocol client's `Modify` issues exactly one
`ModifyVolumeProperties` request, carrying the volume name, parameters and request
context verbatim; it performs no internal retry, and it returns the underlying RPC's
error unchanged — in particular it returns `none` (nil error) exactly when the RPC
returned no error. -/
theorem modify_single_request_verbatim
    (rpcSend : ModifyVolumePropertiesRequest → Option String)
    (volumeID : String) (params reqContext : AnnMap) :
    (clientModify rpcSend volumeID params reqContext).1 =
      [{ name := volumeID, parameters := params, reqContext := reqContext }] ∧
    (clientModify rpcSend volumeID params reqContext).2 =
      rpcSend { name := volumeID, parameters := params, reqContext := reqContext } ∧
    ((clientModify rpcSend volumeID params reqContext).2 = none ↔
      rpcSend { name := volumeID, parameters := params, reqContext := reqContext } = none) :=
  ⟨rfl, rfl, Iff.rfl⟩

/-- Witness for C8 at a concrete oracle and arguments. -/
theorem modify_single_request_verbatim_witness :
    (clientModify (fun _ => none) "vol-123243434" [("iops", "3000")] [("k", "v")]).1 =
      [{ name := "vol-123243434", parameters := [("iops", "3000")],
         reqContext := [("k", "v")] }] :=
  (modify_single_request_verbatim (fun _ => none) "vol-123243434" [("iops", "3000")]
    [("k", "v")]).1

/-- C9: if the startup capability probe fails (`SupportsVolumeModification` returns an
error) or the driver's identity cannot be obtained (`GetDriverName` returns an error),
`main` terminates fatally and the controller is never constructed: a running result
implies both probes succeeded, and either failure yields a fatal result. -/
theorem startup_fatal_on_probe_failure (deps : MainDeps) :
    (∀ args, mainStartup deps = .running args →
      deps.supportsVolumeModification = none ∧ ∃ n, deps.getDriverName = .ok n) ∧
    ((deps.supportsVolumeModification ≠ none ∨ (∃ e, deps.getDriverName = .error e)) →
      ∃ msg, mainStartup deps = .fatal msg) := by
  obtain ⟨bc, nk, nc, sv, gd, nf⟩ := deps
  cases bc <;> cases nk <;> cases nc <;> cases sv <;> cases gd <;> cases nf <;>
    simp [mainStartup]

/-- Witness for C9: with all startup steps succeeding, the running state certifies the
capability probe succeeded. -/
theorem startup_fatal_on_probe_failure_witness :
    ({ buildConfig := none, newKubeClient := none, newCsiClient := none,
       supportsVolumeModification := none, getDriverName := .ok "ebs.csi.aws.com",
       newFromClient := none } : MainDeps).supportsVolumeModification = none :=
  ((startup_fatal_on_probe_failure
    { buildConfig := none, newKubeClient := none, newCsiClient := none,
      supportsVolumeModification := none, getDriverName := .ok "ebs.csi.aws.com",
      newFromClient := none }).1
    { name := "ebs.csi.aws.com", retryFailure := true,
      enableVolumeTypeModification := none } rfl).1

/-- C10: in the shipped binary's wiring, every run of `main` constructs the controller
with `retryFailure` hardcoded to `true` and passes no `enableVolumeTypeModification`
value at all; the command-line flag set declares no flag mentioning volume-type
modification; and the test wiring, by contrast, passes an explicit
`enableVolumeTypeModification` argument (and `retryFailure` as `false`) to the same
constructor. -/
theorem main_wiring_hardcoded :
    (∀ deps args, mainStartup deps = .running args →
      args.retryFailure = true ∧ args.enableVolumeTypeModification = none) ∧
    mainFlagNames.all
      (fun f => !hasSub "volume-type" f && !hasSub "volumeType" f) = true ∧
    (∀ driverName enable,
      (testWiringArgs driverName enable).enableVolumeTypeModification = some enable ∧
      (testWiringArgs driverName enable).retryFailure = false) := by
  refine ⟨?_, by decide, fun driverName enable => ⟨rfl, rfl⟩⟩
  intro deps args h
  obtain ⟨bc, nk, nc, sv, gd, nf⟩ := deps
  cases bc <;> cases nk <;> cases nc <;> cases sv <;> cases gd <;> cases nf <;>
    (simp [mainStartup] at h; all_goals (rw [← h]; exact ⟨rfl, rfl⟩))

/-- Witness for C10: a successful startup yields a controller with failure retry
enabled. -/
theorem main_wiring_hardcoded_witness :
    ({ name := "ebs.csi.aws.com", retryFailure := true,
       enableVolumeTypeModification := none } : ModifyControllerArgs).retryFailure =
      true :=
  (main_wiring_hardcoded.1
    { buildConfig := none, newKubeClient := none, newCsiClient := none,
      supportsVolumeModification := none, getDriverName := .ok "ebs.csi.aws.com",
      newFromClient := none }
    { name := "ebs.csi.aws.com", retryFailure := true,
      enableVolumeTypeModification := none } rfl).1

end VolMod
